import Mathlib

/-!
Shallow embedding of the notebooks in `QCVV/Session 1.ipynb`
(a T1/T2/measurement-mitigation tutorial followed by a pulse-level
readout-calibration exercise), together with theorems checking the
natural-language specification against it.

Machine floats are modelled by exact rationals `ℚ`; transcendental
fit models are stated over `ℝ`.
-/

namespace QCVV

/-! ### numpy primitives used by the notebooks -/

/-- `np.linspace(a, b, n)`: `n` evenly spaced samples from `a` to `b`
(inclusive).  For `n = 1` numpy returns `[a]`; rational division by the
then-zero denominator yields `0`, matching that case. -/
def np_linspace (a b : ℚ) (n : ℕ) : List ℚ :=
  (List.range n).map fun i : ℕ => a + (b - a) * (i : ℚ) / ((n - 1 : ℕ) : ℚ)

/-- Maximum value of a list of rationals (the empty list maps to `0`;
the notebooks only apply this to nonempty data). -/
def list_max : List ℚ → ℚ
  | [] => 0
  | [x] => x
  | x :: y :: ys => max x (list_max (y :: ys))

/-- `np.argmax`: index of the first occurrence of the maximum value. -/
def np_argmax : List ℚ → ℕ
  | [] => 0
  | [_] => 0
  | x :: y :: ys => if list_max (y :: ys) ≤ x then 0 else 1 + np_argmax (y :: ys)

/-! ### Pulse-calibration notebook: amplitude sweep (cells around
`amps = np.linspace(0, max_amp, n_exps)` and
`optimal_idx = int(np.argmax(centroid_distances))`). -/

/-- `n_exps = 10` -/
def n_exps : ℕ := 10

/-- `max_amp = 0.15` -/
def max_amp : ℚ := 15 / 100

/-- `amps = np.linspace(0, max_amp, n_exps)` -/
def amps : List ℚ := np_linspace 0 max_amp n_exps

/-- `optimal_idx = int(np.argmax(centroid_distances))` -/
def optimal_idx (centroid_distances : List ℚ) : ℕ :=
  np_argmax centroid_distances

/-- `optimal_amp = amps[optimal_idx]` -/
def optimal_amp (centroid_distances : List ℚ) : ℚ :=
  amps.getD (optimal_idx centroid_distances) 0

/-! ### T1 experiment design (first notebook,
`num_of_gates = (np.linspace(10, 300, 50)).astype(int)` etc.) -/

/-- numpy `.astype(int)`: truncation toward zero. -/
def np_astype_int (q : ℚ) : ℤ :=
  if 0 ≤ q then ⌊q⌋ else ⌈q⌉

/-- `num_of_gates = (np.linspace(10, 300, 50)).astype(int)` -/
def num_of_gates : List ℤ :=
  (np_linspace 10 300 50).map np_astype_int

/-- `gate_time = 0.1` (micro-seconds per identity gate). -/
def gate_time : ℚ := 1 / 10

/-- `qubits = [0]` -/
def t1_qubits : List ℕ := [0]

/-- Modelled from the spec: `t1_circuits` (from
`qiskit.ignis.characterization.coherence`, not in this repository)
"will return both the circuits and delay information"; each circuit is an
X gate followed by `k` barrier-separated identity gates and a measurement
of the chosen qubits — modelled here by the pair `(k, qubits)` — and the
delay times "are calculated as (number of identity gates) * (time per
identity gate)". -/
def t1_circuits (num_gates : List ℤ) (gt : ℚ) (qubits : List ℕ) :
    List (ℤ × List ℕ) × List ℚ :=
  (num_gates.map (fun k : ℤ => (k, qubits)),
   num_gates.map (fun k : ℤ => (k : ℚ) * gt))

/-! ### Readout error from backend properties (first notebook,
`a = np.round(props.qubit_property(j)['prob_meas0_prep1'][0], 5)` …). -/

/-- `np.round(x)` to the nearest integer, rounding halves to even
(numpy/IEEE semantics). -/
def np_round_int (x : ℚ) : ℤ :=
  if x - ⌊x⌋ < 1 / 2 then ⌊x⌋
  else if 1 / 2 < x - ⌊x⌋ then ⌊x⌋ + 1
  else if 2 ∣ ⌊x⌋ then ⌊x⌋ else ⌊x⌋ + 1

/-- `np.round(x, 5)`: rounding to 5 decimal places. -/
def np_round_5 (x : ℚ) : ℚ :=
  (np_round_int (x * 100000) : ℚ) / 100000

/-- The readout-error computation of the notebook's loop over qubits:
`a = np.round(p01, 5)`, `b = np.round(p10, 5)`, `error = (a+b)/2`. -/
def readout_error (prob_meas0_prep1 prob_meas1_prep0 : ℚ) : ℚ :=
  ((np_round_5 prob_meas0_prep1) + (np_round_5 prob_meas1_prep0)) / 2

/-! ### Measurement calibration (first notebook, `complete_meas_cal` and
`CompleteMeasFitter` on a 3-qubit register). -/

/-- Bitstring (most-significant qubit first, qiskit label convention) of
the natural number `k` on `n` bits. -/
def nat_to_bits (n k : ℕ) : List Bool :=
  (List.range n).map fun i : ℕ => k.testBit (n - 1 - i)

/-- Modelled from the spec: `complete_meas_cal` (qiskit-ignis, not in
this repository) returns one calibration state label per basis state of
the `n` qubits, in ascending binary order from `0…0` to `1…1`. -/
def state_labels (n : ℕ) : List (List Bool) :=
  (List.range (2 ^ n)).map (nat_to_bits n)

/-- Modelled from the spec: the calibration circuit for a state label
"simply prepares the state and then immediately measures the qubits";
modelled by the indices of the qubits that get an X gate (those whose
label bit is 1). -/
def x_gates (n : ℕ) (label : List Bool) : List ℕ :=
  (List.range n).filter fun q : ℕ => label.getD (n - 1 - q) false

/-- Modelled from the spec: the list of calibration circuits of
`complete_meas_cal`, one per state label. -/
def meas_calibs (n : ℕ) : List (List ℕ) :=
  (state_labels n).map (x_gates n)

/-- Noiseless execution of a calibration circuit: starting from `|0…0⟩`,
measured bit of qubit `q` is 1 iff an X gate acted on qubit `q`; the
result is read back as a label (most-significant qubit first). -/
def measured_label (n : ℕ) (gates : List ℕ) : List Bool :=
  (List.range n).map fun i : ℕ => decide ((n - 1 - i) ∈ gates)

/-- Modelled from the spec: the calibration matrix of
`CompleteMeasFitter` built from noiseless calibration results; entry
`(i, j)` is the probability of observing `state_labels[i]` after running
calibration circuit `j`, which without noise is 1 exactly when the
measured label is `state_labels[i]`. -/
def cal_matrix (n : ℕ) : Fin (2 ^ n) → Fin (2 ^ n) → ℚ := fun i j =>
  if measured_label n ((meas_calibs n).getD j []) = (state_labels n).getD i []
  then 1 else 0

/-! ### Pulse-calibration notebook: measurement schedule construction
(`prepare_meas_cal_exp` and the `prep_exps` amplitude sweep). -/

/-- `meas_duration = 11200` -/
def meas_duration : ℕ := 11200

/-- `meas_sigma = 54` -/
def meas_sigma : ℕ := 54

/-- `meas_width = meas_duration - 320` -/
def meas_width : ℕ := meas_duration - 320

/-- `meas_amp_guess = 0.01` -/
def meas_amp_guess : ℚ := 1 / 100

/-- The pulse shapes the notebook plays. -/
inductive Pulse where
  | gaussianSquare (duration sigma : ℕ) (amp : ℚ) (width : ℕ)
  | x180
deriving DecidableEq

/-- Pulse channels: `d(q)`, `m(q)`, `a(q)` in the notebook. -/
inductive Channel where
  | drive (qubit : ℕ)
  | meas (qubit : ℕ)
  | acquireCh (qubit : ℕ)
deriving DecidableEq

/-- A pulse-builder instruction of a schedule. -/
inductive Instr where
  | play (p : Pulse) (c : Channel)
  | barrier (qubits : List ℕ)
  | acquireData (duration : ℕ) (c : Channel) (mem_slot : ℕ)
deriving DecidableEq

/-- `prepare_meas_cal_exp(amp, prep_excited)`: when `prep_excited`, play
the x180 pulse on qubit 0's drive channel; then a barrier over
`range(pulse.num_qubits())`; then play the GaussianSquare measurement
pulse on the measure channel of every chip qubit; then acquire for the
full measurement duration on every qubit's acquire channel into its
memory slot.  `num_qubits` stands for `pulse.num_qubits()` of the
backend and `chip_qubits` for the indices of `chip.qubits` (both come
from hardware/configuration data not recorded in the repository). -/
def prepare_meas_cal_exp (num_qubits : ℕ) (chip_qubits : List ℕ)
    (amp : ℚ) (prep_excited : Bool) : List Instr :=
  (if prep_excited then [Instr.play Pulse.x180 (Channel.drive 0)] else []) ++
  [Instr.barrier (List.range num_qubits)] ++
  chip_qubits.map (fun q : ℕ =>
    Instr.play (Pulse.gaussianSquare meas_duration meas_sigma amp meas_width)
      (Channel.meas q)) ++
  (List.range num_qubits).map (fun q : ℕ =>
    Instr.acquireData meas_duration (Channel.acquireCh q) q)

/-- Modelled from the spec: `prep_exps` (an exercise stub in the
notebook, specified by its docstring) returns the list of pulse
schedules "with the first `n_exps` being ground reference experiments
and the second half of experiments being excited state preparation
experiments", one pair per swept amplitude. -/
def prep_exps (num_qubits : ℕ) (chip_qubits : List ℕ)
    (amps_list : List ℚ) : List (List Instr) :=
  amps_list.map (fun a : ℚ => prepare_meas_cal_exp num_qubits chip_qubits a false) ++
  amps_list.map (fun a : ℚ => prepare_meas_cal_exp num_qubits chip_qubits a true)

/-! ### Centroid separation (pulse-calibration notebook). -/

/-- Modelled from the spec: `calculate_centroid_separation` (an exercise
stub in the notebook, specified by its docstring) returns the Euclidean
distance between the two complex centroid locations — a real number
(docstring: `Returns: float`). -/
noncomputable def calculate_centroid_separation (ground_loc excited_loc : ℂ) : ℝ :=
  Complex.abs (ground_loc - excited_loc)

/-- Modelled from the spec: `calculate_distances` (an exercise stub)
aggregates the centroid separation for each ground/excited pair of the
amplitude sweep; its docstring announces "an array of complex values",
but each entry is the real-valued separation. -/
noncomputable def calculate_distances (ground_locs excited_locs : List ℂ) : List ℝ :=
  List.zipWith calculate_centroid_separation ground_locs excited_locs

/-! ### Coherence fitters (first notebook, `T1Fitter` / `T2StarFitter`). -/

/-- `t1_true = 25.0` -/
def t1_true : ℚ := 25

/-- `fit_p0=[1, t1_true, 0]` passed to `T1Fitter` (ordering `(A, T1, B)`). -/
def t1_fit_p0 : List ℚ := [1, t1_true, 0]

/-- `fit_bounds=([0, 0, -1], [2, 40, 1])` passed to `T1Fitter`. -/
def t1_fit_bounds : List ℚ × List ℚ := ([0, 0, -1], [2, 40, 1])

/-- Modelled from the spec: the model `T1Fitter` fits the survival
probability to, `A·exp(-t/T1) + B` (the notebook's markdown:
`Pr(survival) = A e^{-t/T_1} + B`). -/
noncomputable def t1_model (A T1 B t : ℝ) : ℝ := A * Real.exp (-t / T1) + B

/-- Modelled from the spec: the model `T2StarFitter` fits to,
`2·A·exp(-t/T2*)·cos(2π f t + φ) + B`. -/
noncomputable def t2star_model (A T2star f phi B t : ℝ) : ℝ :=
  2 * A * Real.exp (-t / T2star) * Real.cos (2 * Real.pi * f * t + phi) + B

/-- Modelled from the spec: a coherence fitter carries the fitted
parameters and their error bars, with the time constant at index 1
(parameter orderings `(A, T1, B)` and `(A, T2*, f, phi, B)`). -/
structure CoherenceFitter where
  params : List ℝ
  params_err : List ℝ

/-- Modelled from the spec: `.time()` returns the fitted time constant. -/
def CoherenceFitter.time (fit : CoherenceFitter) : ℝ := fit.params.getD 1 0

/-- Modelled from the spec: `.time_err()` returns the error bar of the
fitted time constant. -/
def CoherenceFitter.time_err (fit : CoherenceFitter) : ℝ := fit.params_err.getD 1 0

/-! ### Measurement-error mitigation via `meas_fitter.filter.apply`. -/

/-- The two fitting methods for applying the calibration. -/
inductive FitMethod where
  | pseudo_inverse
  | least_squares
deriving DecidableEq

/-- Modelled from the spec: "if no method is defined, then
'least_squares' is used". -/
def resolve_method : Option FitMethod → FitMethod
  | none => FitMethod.least_squares
  | some m => m

/-- Matrix–vector product over `Fin n`. -/
def mat_mul_vec (n : ℕ) (M : Fin n → Fin n → ℚ) (v : Fin n → ℚ) : Fin n → ℚ :=
  fun i => ∑ j, M i j * v j

/-- A counts vector is physical when nonnegative with the given total. -/
def is_physical (n : ℕ) (total : ℚ) (v : Fin n → ℚ) : Prop :=
  (∀ i, 0 ≤ v i) ∧ ∑ i, v i = total

/-- Sum of squared deviations of `M · x` from the raw counts. -/
def ssd (n : ℕ) (M : Fin n → Fin n → ℚ) (x raw : Fin n → ℚ) : ℚ :=
  ∑ i, (mat_mul_vec n M x i - raw i) ^ 2

/-- Modelled from the spec: the correction `meas_filter.apply` computes
on a raw counts vector.  'pseudo_inverse' is a direct inversion of the
calibration matrix (`corrected = Minv · raw`, `Minv` the inverse of the
calibration matrix `M`); 'least_squares' constrains the corrected
counts to physical probabilities, minimizing the squared deviation of
`M · corrected` from the raw counts. -/
def apply_spec (n : ℕ) (method : Option FitMethod) (Minv M : Fin n → Fin n → ℚ)
    (raw corrected : Fin n → ℚ) : Prop :=
  match resolve_method method with
  | FitMethod.pseudo_inverse => corrected = mat_mul_vec n Minv raw
  | FitMethod.least_squares =>
      is_physical n (∑ i, raw i) corrected ∧
      ∀ x, is_physical n (∑ i, raw i) x →
        ssd n M corrected raw ≤ ssd n M x raw

/-! ### How each experiment's post-submission data is retrieved. -/

/-- The two data-retrieval channels the notebooks use after job
submission. -/
inductive Retrieval where
  | counts
  | memory
deriving DecidableEq

/-- Which notebook an experiment belongs to: the T1/T2/mitigation
tutorial or the pulse-level readout-calibration exercise. -/
inductive Notebook where
  | session1
  | pulse_cal
deriving DecidableEq

/-- One job submission in the repository together with how its results
feed the subsequent fitting/plotting. -/
structure ExperimentUse where
  name : String
  notebook : Notebook
  retrieval : Retrieval
deriving DecidableEq

/-- Catalog of every job the notebooks submit.  In the first notebook
every result feeds fitters/plots through `.get_counts` (`T1Fitter`,
`T2StarFitter`, `T2Fitter`, `CompleteMeasFitter`, `plot_histogram`);
the pulse-calibration notebook runs with `meas_level=1` and reads
kernelled IQ memory through `result.get_memory`. -/
def experiments : List ExperimentUse :=
  [⟨"t1", Notebook.session1, Retrieval.counts⟩,
   ⟨"t2star", Notebook.session1, Retrieval.counts⟩,
   ⟨"t2echo", Notebook.session1, Retrieval.counts⟩,
   ⟨"t2cpmg", Notebook.session1, Retrieval.counts⟩,
   ⟨"meas_cal_noiseless", Notebook.session1, Retrieval.counts⟩,
   ⟨"meas_cal_noisy", Notebook.session1, Retrieval.counts⟩,
   ⟨"ghz", Notebook.session1, Retrieval.counts⟩,
   ⟨"bell", Notebook.session1, Retrieval.counts⟩,
   ⟨"readout_guess", Notebook.pulse_cal, Retrieval.memory⟩,
   ⟨"readout_amp_sweep", Notebook.pulse_cal, Retrieval.memory⟩]

/-- `scale_factor = 1e-7` -/
def scale_factor : ℚ := 1 / 10 ^ 7

/-- `get_qubit_data(result, prog_idx, qubit)`: one qubit's meas_level-1
memory column, an array of complex IQ values scaled by `scale_factor`
(complex numbers modelled as real/imaginary rational pairs). -/
def get_qubit_data (memory_column : List (ℚ × ℚ)) : List (ℚ × ℚ) :=
  memory_column.map fun z : ℚ × ℚ => (z.1 * scale_factor, z.2 * scale_factor)

end QCVV

namespace QCVV

/-! ### Helper lemmas on `list_max` / `np_argmax` -/

theorem np_linspace_length (a b : ℚ) (n : ℕ) : (np_linspace a b n).length = n := by
  rw [np_linspace, List.length_map, List.length_range]

theorem le_list_max (l : List ℚ) (i : ℕ) (hi : i < l.length) :
    l.getD i 0 ≤ list_max l := by
  induction l generalizing i with
  | nil => simp at hi
  | cons x xs ih =>
    cases xs with
    | nil =>
      have h0 : i = 0 := by
        simp only [List.length_cons, List.length_nil] at hi
        omega
      subst h0
      simp [list_max]
    | cons y ys =>
      cases i with
      | zero => simp [list_max]
      | succ n =>
        have h := ih n (by simpa using hi)
        calc (x :: y :: ys).getD (n + 1) 0 = (y :: ys).getD n 0 := rfl
          _ ≤ list_max (y :: ys) := h
          _ ≤ list_max (x :: y :: ys) := by rw [list_max]; exact le_max_right _ _

theorem np_argmax_lt_length (l : List ℚ) (hl : l ≠ []) :
    np_argmax l < l.length := by
  induction l with
  | nil => exact absurd rfl hl
  | cons x xs ih =>
    cases xs with
    | nil => simp [np_argmax]
    | cons y ys =>
      rw [np_argmax]
      by_cases h : list_max (y :: ys) ≤ x
      · simp [h]
      · have hlt := ih (by simp)
        rw [if_neg h]
        simp only [List.length_cons] at hlt ⊢
        omega

theorem np_argmax_getD (l : List ℚ) (hl : l ≠ []) :
    l.getD (np_argmax l) 0 = list_max l := by
  induction l with
  | nil => exact absurd rfl hl
  | cons x xs ih =>
    cases xs with
    | nil => simp [np_argmax, list_max]
    | cons y ys =>
      rw [np_argmax, list_max]
      by_cases h : list_max (y :: ys) ≤ x
      · rw [if_pos h, max_eq_left h]
        rfl
      · have hx : x ≤ list_max (y :: ys) := le_of_lt (lt_of_not_le h)
        have h2 := ih (by simp)
        rw [if_neg h, max_eq_right hx, Nat.add_comm]
        exact h2

/-- **C1.** In the pulse-level readout calibration, the calibrated
measurement amplitude is the element of the swept amplitude array
`amps = np.linspace(0, max_amp, n_exps)` whose index maximizes the
computed centroid-separation array: `centroid_distances[optimal_idx]`
dominates every entry, and `optimal_amp = amps[optimal_idx]` is a member
of the sweep. -/
theorem optimal_amp_maximizes_separation (centroid_distances : List ℚ)
    (hlen : centroid_distances.length = n_exps) :
    (∀ i, i < centroid_distances.length →
      centroid_distances.getD i 0 ≤
        centroid_distances.getD (optimal_idx centroid_distances) 0) ∧
    optimal_amp centroid_distances ∈ amps := by
  have hne : centroid_distances ≠ [] := by
    intro h; rw [h] at hlen; simp [n_exps] at hlen
  constructor
  · intro i hi
    rw [optimal_idx, np_argmax_getD _ hne]
    exact le_list_max _ _ hi
  · have hidx : optimal_idx centroid_distances < amps.length := by
      have h1 := np_argmax_lt_length centroid_distances hne
      have h2 : amps.length = n_exps := np_linspace_length _ _ _
      rw [hlen] at h1
      rw [h2]
      exact h1
    rw [optimal_amp, List.getD_eq_getElem _ _ hidx]
    exact List.getElem_mem hidx

/-- Witness for C1 at a concrete length-10 distance array. -/
theorem optimal_amp_maximizes_separation_witness :
    optimal_amp [0, 5, 3, 1, 2, 9, 9, 0, 4, 1] ∈ amps :=
  (optimal_amp_maximizes_separation [0, 5, 3, 1, 2, 9, 9, 0, 4, 1]
    (by decide)).2

theorem np_linspace_getD (a b : ℚ) (n i : ℕ) (h : i < n) :
    (np_linspace a b n).getD i 0 = a + (b - a) * (i : ℚ) / ((n - 1 : ℕ) : ℚ) := by
  have h1 : i < (np_linspace a b n).length := by rw [np_linspace_length]; exact h
  rw [np_linspace] at h1 ⊢
  rw [List.getD_eq_getElem _ _ h1, List.getElem_map, List.getElem_range]

theorem num_of_gates_length : num_of_gates.length = 50 := by
  rw [num_of_gates, List.length_map, np_linspace_length]

theorem num_of_gates_getD (i : ℕ) (h : i < 50) :
    num_of_gates.getD i 0 = np_astype_int ((np_linspace 10 300 50).getD i 0) := by
  have h1 : i < (np_linspace 10 300 50).length := by rw [np_linspace_length]; exact h
  have h2 : i < ((np_linspace 10 300 50).map np_astype_int).length := by
    rw [List.length_map]; exact h1
  rw [num_of_gates, List.getD_eq_getElem _ _ h2, List.getElem_map,
    List.getD_eq_getElem _ _ h1]

theorem num_of_gates_head : num_of_gates.getD 0 0 = 10 := by
  rw [num_of_gates_getD 0 (by norm_num), np_linspace_getD 10 300 50 0 (by norm_num)]
  have hv : (10 : ℚ) + (300 - 10) * ((0 : ℕ) : ℚ) / ((50 - 1 : ℕ) : ℚ) = 10 := by
    norm_num
  rw [hv, np_astype_int, if_pos (by norm_num : (0 : ℚ) ≤ 10)]
  norm_num

/-- **C6.** The T1 experiment design is produced by a single call
`t1_circuits(num_of_gates, gate_time, qubits)` returning both the
circuits and the delay xdata, where `t1_xdata[i] = num_of_gates[i] *
gate_time` for every index; in particular the first circuit has 10
identity gates, at `gate_time = 0.1` micro-seconds, for a 1 micro-second
delay. -/
theorem t1_xdata_is_gates_times_gate_time :
    (t1_circuits num_of_gates gate_time t1_qubits).1.length = num_of_gates.length ∧
    (t1_circuits num_of_gates gate_time t1_qubits).2.length = num_of_gates.length ∧
    (∀ i, i < num_of_gates.length →
      (t1_circuits num_of_gates gate_time t1_qubits).2.getD i 0 =
        ((num_of_gates.getD i 0 : ℤ) : ℚ) * gate_time) ∧
    num_of_gates.getD 0 0 = 10 ∧ gate_time = 1 / 10 ∧
    (t1_circuits num_of_gates gate_time t1_qubits).2.getD 0 0 = 1 := by
  have hrepr1 : (t1_circuits num_of_gates gate_time t1_qubits).1 =
      num_of_gates.map (fun k : ℤ => (k, t1_qubits)) := rfl
  have hrepr2 : (t1_circuits num_of_gates gate_time t1_qubits).2 =
      num_of_gates.map (fun k : ℤ => (k : ℚ) * gate_time) := rfl
  have hgate : ∀ i, i < num_of_gates.length →
      (t1_circuits num_of_gates gate_time t1_qubits).2.getD i 0 =
        ((num_of_gates.getD i 0 : ℤ) : ℚ) * gate_time := by
    intro i hi
    have hi2 : i < (num_of_gates.map (fun k : ℤ => (k : ℚ) * gate_time)).length := by
      rw [List.length_map]; exact hi
    rw [hrepr2, List.getD_eq_getElem _ _ hi2, List.getElem_map,
      List.getD_eq_getElem _ _ hi]
  refine ⟨by rw [hrepr1]; exact List.length_map _ _,
          by rw [hrepr2]; exact List.length_map _ _,
          hgate, num_of_gates_head, rfl, ?_⟩
  have h0 : (0 : ℕ) < num_of_gates.length := by rw [num_of_gates_length]; norm_num
  rw [hgate 0 h0, num_of_gates_head]
  norm_num [gate_time]

/-- Witness for C6 at index 0. -/
theorem t1_xdata_is_gates_times_gate_time_witness :
    (t1_circuits num_of_gates gate_time t1_qubits).2.getD 0 0 =
      ((num_of_gates.getD 0 0 : ℤ) : ℚ) * gate_time :=
  t1_xdata_is_gates_times_gate_time.2.2.1 0
    (by rw [num_of_gates_length]; norm_num)

/-- `np.round` to the nearest integer moves a value by at most 1/2. -/
theorem np_round_int_close (y : ℚ) : |(np_round_int y : ℚ) - y| ≤ 1 / 2 := by
  have h1 : (⌊y⌋ : ℚ) ≤ y := Int.floor_le y
  have h2 : y < ⌊y⌋ + 1 := Int.lt_floor_add_one y
  rw [np_round_int]
  split_ifs with ha hb hc
  · rw [abs_le]; constructor <;> linarith
  · rw [abs_le]; push_cast; constructor <;> linarith
  · rw [abs_le]; constructor <;> linarith
  · rw [abs_le]; push_cast; constructor <;> linarith

/-- `np.round(·, 5)` moves a value by at most half of the fifth decimal
place. -/
theorem np_round_5_close (x : ℚ) : |np_round_5 x - x| ≤ 1 / 200000 := by
  have h := np_round_int_close (x * 100000)
  rw [np_round_5]
  have heq : (np_round_int (x * 100000) : ℚ) / 100000 - x =
      ((np_round_int (x * 100000) : ℚ) - x * 100000) / 100000 := by ring
  rw [heq, abs_div]
  have h100 : |(100000 : ℚ)| = 100000 := by norm_num
  rw [h100]
  calc |(np_round_int (x * 100000) : ℚ) - x * 100000| / 100000
      ≤ (1 / 2) / 100000 := (div_le_div_iff_of_pos_right (by norm_num)).mpr h
    _ = 1 / 200000 := by norm_num

/-- **C7.** For every qubit, the reported readout error is the arithmetic
mean `(a+b)/2` of `a = np.round(prob_meas0_prep1, 5)` and
`b = np.round(prob_meas1_prep0, 5)`; each rounded probability is an exact
multiple of `10⁻⁵` and differs from the raw backend value by at most
`1/200000`. -/
theorem readout_error_is_mean_of_rounded (p01 p10 : ℚ) :
    readout_error p01 p10 = (np_round_5 p01 + np_round_5 p10) / 2 ∧
    readout_error p01 p10 - np_round_5 p01 =
      np_round_5 p10 - readout_error p01 p10 ∧
    (∃ k : ℤ, np_round_5 p01 = (k : ℚ) / 100000) ∧
    |np_round_5 p01 - p01| ≤ 1 / 200000 := by
  refine ⟨rfl, ?_, ⟨np_round_int (p01 * 100000), rfl⟩, np_round_5_close p01⟩
  rw [readout_error]
  ring

/-- **C5.** For 3 qubits, `complete_meas_cal` constructs exactly
`2^3 = 8` calibration circuits and 8 state labels, the first circuit
preparing `|000⟩` and the last `|111⟩`; executed without any noise
model, the calibration matrix produced by `CompleteMeasFitter` is the
8×8 identity matrix. -/
theorem complete_meas_cal_three_qubits :
    (state_labels 3).length = 8 ∧ (meas_calibs 3).length = 8 ∧
    (state_labels 3).getD 0 [] = [false, false, false] ∧
    (state_labels 3).getD 7 [] = [true, true, true] ∧
    measured_label 3 ((meas_calibs 3).getD 0 []) = [false, false, false] ∧
    measured_label 3 ((meas_calibs 3).getD 7 []) = [true, true, true] ∧
    (∀ i j : Fin (2 ^ 3), cal_matrix 3 i j = if i = j then 1 else 0) := by
  decide

/-! Helper lemmas for list indexing across appends and maps. -/

theorem getD_append_left_of_lt {α : Type} (l₁ l₂ : List α) (i : ℕ) (d : α)
    (h : i < l₁.length) : (l₁ ++ l₂).getD i d = l₁.getD i d := by
  induction l₁ generalizing i with
  | nil => simp at h
  | cons x xs ih =>
    cases i with
    | zero => rfl
    | succ n =>
      rw [List.cons_append, List.getD_cons_succ, List.getD_cons_succ]
      exact ih n (by simpa using h)

theorem getD_append_right_add {α : Type} (l₁ l₂ : List α) (i : ℕ) (d : α) :
    (l₁ ++ l₂).getD (l₁.length + i) d = l₂.getD i d := by
  induction l₁ with
  | nil => simp
  | cons x xs ih =>
    have h : (x :: xs).length + i = (xs.length + i) + 1 := by
      rw [List.length_cons]; omega
    rw [h, List.cons_append, List.getD_cons_succ, ih]

theorem getD_map_sched (num_qubits : ℕ) (chip_qubits : List ℕ) (pe : Bool)
    (l : List ℚ) (i : ℕ) (h : i < l.length) :
    (l.map (fun a : ℚ => prepare_meas_cal_exp num_qubits chip_qubits a pe)).getD i [] =
      prepare_meas_cal_exp num_qubits chip_qubits (l.getD i 0) pe := by
  have h2 : i < (l.map (fun a : ℚ =>
      prepare_meas_cal_exp num_qubits chip_qubits a pe)).length := by
    rw [List.length_map]; exact h
  rw [List.getD_eq_getElem _ _ h2, List.getElem_map, List.getD_eq_getElem _ _ h]

/-- **C8.** `prepare_meas_cal_exp(amp, prep_excited)` plays a
GaussianSquare measurement pulse (duration 11200, sigma 54, width
duration − 320, amplitude `amp`) on the measure channel of every chip
qubit and acquires for the full measurement duration on every qubit's
acquire channel; with `prep_excited` the x180 pulse on qubit 0's drive
channel sits before the barrier over all qubits, so the excitation
precedes every measurement pulse. -/
theorem prepare_meas_cal_exp_spec (num_qubits : ℕ) (chip_qubits : List ℕ)
    (amp : ℚ) (prep_excited : Bool) :
    (∀ q, q ∈ chip_qubits →
      Instr.play (Pulse.gaussianSquare meas_duration meas_sigma amp meas_width)
          (Channel.meas q) ∈
        prepare_meas_cal_exp num_qubits chip_qubits amp prep_excited) ∧
    (∀ q, q < num_qubits →
      Instr.acquireData meas_duration (Channel.acquireCh q) q ∈
        prepare_meas_cal_exp num_qubits chip_qubits amp prep_excited) ∧
    meas_duration = 11200 ∧ meas_sigma = 54 ∧ meas_width = meas_duration - 320 ∧
    (prepare_meas_cal_exp num_qubits chip_qubits amp true).getD 0 (Instr.barrier []) =
      Instr.play Pulse.x180 (Channel.drive 0) ∧
    (prepare_meas_cal_exp num_qubits chip_qubits amp true).getD 1 (Instr.barrier []) =
      Instr.barrier (List.range num_qubits) ∧
    (∀ q k,
      (prepare_meas_cal_exp num_qubits chip_qubits amp true).getD k (Instr.barrier []) =
        Instr.play (Pulse.gaussianSquare meas_duration meas_sigma amp meas_width)
          (Channel.meas q) → 1 < k) := by
  refine ⟨?_, ?_, rfl, rfl, rfl, rfl, rfl, ?_⟩
  · intro q hq
    rw [prepare_meas_cal_exp]
    apply List.mem_append_left
    apply List.mem_append_right
    exact List.mem_map_of_mem _ hq
  · intro q hq
    rw [prepare_meas_cal_exp]
    apply List.mem_append_right
    exact List.mem_map_of_mem _ (List.mem_range.mpr hq)
  · intro q k h
    cases k with
    | zero => simp [prepare_meas_cal_exp] at h
    | succ k1 =>
      cases k1 with
      | zero => simp [prepare_meas_cal_exp] at h
      | succ k2 => omega

/-- Witness for C8: the measurement pulse on chip qubit 0 is in the
excited-state schedule of a 5-qubit chip at the guess amplitude. -/
theorem prepare_meas_cal_exp_spec_witness :
    Instr.play (Pulse.gaussianSquare meas_duration meas_sigma meas_amp_guess meas_width)
        (Channel.meas 0) ∈
      prepare_meas_cal_exp 5 [0, 1, 2, 3, 4] meas_amp_guess true :=
  (prepare_meas_cal_exp_spec 5 [0, 1, 2, 3, 4] meas_amp_guess true).1 0 (by decide)

/-- **C10.** `prep_exps(amps)` returns `2 * n_exps` schedules with the
ground-reference experiment for amplitude index `i` at position `i` and
the excited-state experiment for the same amplitude at position
`n_exps + i`, so the ground/excited IQ data for the optimal amplitude
are retrieved at program indices `optimal_idx` and
`n_exps + optimal_idx`. -/
theorem prep_exps_layout (num_qubits : ℕ) (chip_qubits : List ℕ)
    (amps_list : List ℚ) (i : ℕ) (h : i < amps_list.length) :
    (prep_exps num_qubits chip_qubits amps_list).length = 2 * amps_list.length ∧
    (prep_exps num_qubits chip_qubits amps_list).getD i [] =
      prepare_meas_cal_exp num_qubits chip_qubits (amps_list.getD i 0) false ∧
    (prep_exps num_qubits chip_qubits amps_list).getD (amps_list.length + i) [] =
      prepare_meas_cal_exp num_qubits chip_qubits (amps_list.getD i 0) true := by
  refine ⟨?_, ?_, ?_⟩
  · rw [prep_exps, List.length_append, List.length_map, List.length_map]
    omega
  · rw [prep_exps,
      getD_append_left_of_lt _ _ _ _ (by rw [List.length_map]; exact h),
      getD_map_sched _ _ _ _ _ h]
  · rw [prep_exps]
    have hl : (amps_list.map (fun a : ℚ =>
        prepare_meas_cal_exp num_qubits chip_qubits a false)).length =
        amps_list.length := List.length_map _ _
    rw [← hl, getD_append_right_add, getD_map_sched _ _ _ _ _ h]

/-- Witness for C10 at a two-amplitude sweep, index 1. -/
theorem prep_exps_layout_witness :
    (prep_exps 2 [0, 1] [0, 1 / 10]).getD 1 [] =
      prepare_meas_cal_exp 2 [0, 1] (([0, 1 / 10] : List ℚ).getD 1 0) false :=
  (prep_exps_layout 2 [0, 1] [0, 1 / 10] 1 (by decide)).2.1

/-- **C9.** `calculate_centroid_separation` returns the Euclidean
distance between the two centroid locations: a nonnegative real number
(a float, not a complex value), zero exactly when the centroids
coincide. -/
theorem centroid_separation_euclidean (g e : ℂ) :
    calculate_centroid_separation g e =
      Real.sqrt ((g.re - e.re) ^ 2 + (g.im - e.im) ^ 2) ∧
    0 ≤ calculate_centroid_separation g e ∧
    (calculate_centroid_separation g e = 0 ↔ g = e) := by
  refine ⟨?_, Complex.abs.nonneg _, ?_⟩
  · rw [calculate_centroid_separation, Complex.abs_apply, Complex.normSq_apply,
      Complex.sub_re, Complex.sub_im]
    ring_nf
  · rw [calculate_centroid_separation, map_eq_zero]
    exact sub_eq_zero

/-- **C2.** `T1Fitter` is invoked to fit the survival probability to
`A·exp(-t/T1) + B` with initial guess `(1, 25, 0)` (which lies inside
the bounds) and bounds `([0,0,-1], [2,40,1])`; `T2StarFitter` fits the
decaying cosine `2A·exp(-t/T2*)·cos(2πft+φ) + B`; and each fitter's
`.time()` / `.time_err()` return the fitted time constant and its error
bar (the parameter at index 1). -/
theorem coherence_fitters_spec :
    t1_fit_p0 = [1, 25, 0] ∧ t1_true = 25 ∧
    t1_fit_bounds = ([0, 0, -1], [2, 40, 1]) ∧
    (∀ i, i < t1_fit_p0.length →
      t1_fit_bounds.1.getD i 0 ≤ t1_fit_p0.getD i 0 ∧
      t1_fit_p0.getD i 0 ≤ t1_fit_bounds.2.getD i 0) ∧
    (∀ A T1 B t, t1_model A T1 B t = A * Real.exp (-t / T1) + B) ∧
    (∀ A T2star f phi B t, t2star_model A T2star f phi B t =
      2 * A * Real.exp (-t / T2star) * Real.cos (2 * Real.pi * f * t + phi) + B) ∧
    (∀ fit : CoherenceFitter,
      fit.time = fit.params.getD 1 0 ∧ fit.time_err = fit.params_err.getD 1 0) :=
  ⟨rfl, rfl, rfl, by decide, fun _ _ _ _ => rfl, fun _ _ _ _ _ _ => rfl,
   fun _ => ⟨rfl, rfl⟩⟩

/-- Witness for C2: the initial guess lies inside the bounds at index 1
(the T1 component). -/
theorem coherence_fitters_spec_witness :
    t1_fit_bounds.1.getD 1 0 ≤ t1_fit_p0.getD 1 0 ∧
    t1_fit_p0.getD 1 0 ≤ t1_fit_bounds.2.getD 1 0 :=
  coherence_fitters_spec.2.2.2.1 1 (by decide)

/-- **C3.** `meas_filter.apply` corrects raw results using exactly one
of two methods — 'pseudo_inverse' (direct inversion of the calibration
matrix) or 'least_squares' (constrained to physical probabilities) —
and when no method is specified, 'least_squares' is used. -/
theorem meas_filter_apply_methods (n : ℕ) (Minv M : Fin n → Fin n → ℚ)
    (raw corrected : Fin n → ℚ) :
    (apply_spec n none Minv M raw corrected ↔
      apply_spec n (some FitMethod.least_squares) Minv M raw corrected) ∧
    (apply_spec n (some FitMethod.pseudo_inverse) Minv M raw corrected ↔
      corrected = mat_mul_vec n Minv raw) ∧
    (apply_spec n (some FitMethod.least_squares) Minv M raw corrected →
      is_physical n (∑ i, raw i) corrected) ∧
    (∀ m : FitMethod,
      m = FitMethod.pseudo_inverse ∨ m = FitMethod.least_squares) := by
  refine ⟨Iff.rfl, Iff.rfl, fun h => h.1, fun m => ?_⟩
  cases m
  · exact Or.inl rfl
  · exact Or.inr rfl

/-- Witness for C3: on a 1-dimensional identity calibration the
least-squares correction of the physical raw vector `(5)` is physical. -/
theorem meas_filter_apply_methods_witness :
    is_physical 1 5 (fun _ : Fin 1 => (5 : ℚ)) := by
  have hsum : (∑ i : Fin 1, (fun _ : Fin 1 => (5 : ℚ)) i) = 5 := by simp
  have happly : apply_spec 1 (some FitMethod.least_squares)
      (fun _ _ => 1) (fun _ _ => 1)
      (fun _ : Fin 1 => (5 : ℚ)) (fun _ : Fin 1 => (5 : ℚ)) := by
    constructor
    · exact ⟨fun i => by norm_num, rfl⟩
    · intro x hx
      have h0 : ssd 1 (fun _ _ => 1)
          (fun _ : Fin 1 => (5 : ℚ)) (fun _ : Fin 1 => (5 : ℚ)) = 0 := by
        simp [ssd, mat_mul_vec]
      rw [h0]
      apply Finset.sum_nonneg
      intro i _
      exact sq_nonneg _
  have h := (meas_filter_apply_methods 1 (fun _ _ => 1) (fun _ _ => 1)
    (fun _ : Fin 1 => (5 : ℚ)) (fun _ : Fin 1 => (5 : ℚ))).2.2.1 happly
  rwa [hsum] at h

/-- **C4.** Every experiment of the first notebook plots/fits count
data obtained from the Result's counts, while the pulse-calibration
notebook instead retrieves meas_level-1 kernelled memory (arrays of
complex IQ values via `result.get_memory`, scaled per qubit by
`get_qubit_data`); the claim covers every experiment in the
repository. -/
theorem experiment_data_kinds :
    (∀ e ∈ experiments,
      e.notebook = Notebook.session1 → e.retrieval = Retrieval.counts) ∧
    (∀ e ∈ experiments,
      e.notebook = Notebook.pulse_cal → e.retrieval = Retrieval.memory) ∧
    (∀ col : List (ℚ × ℚ), (get_qubit_data col).length = col.length) :=
  ⟨by decide, by decide, fun col => List.length_map _ _⟩

/-- Witness for C4 at the T1 experiment. -/
theorem experiment_data_kinds_witness :
    (⟨"t1", Notebook.session1, Retrieval.counts⟩ : ExperimentUse).retrieval =
      Retrieval.counts :=
  experiment_data_kinds.1 ⟨"t1", Notebook.session1, Retrieval.counts⟩
    (by rw [experiments]; exact List.mem_cons_self _ _) rfl

end QCVV
